import Mathlib

/-!
Shallow embedding of the transaction-to-capital consistency core of the
finances backend.  The repository ships two realizations of the same design:

* Realization A ("incremental"): the NestJS + Mongoose backend
  (`modules/transactions/transactions.service.ts`,
  `modules/capital/capital.service.ts`).  The capital document is maintained
  incrementally via `applyTransactionDelta` / `reconcileEdit`.

* Realization B ("recompute"): the Express + PostgreSQL backend
  (`postgres-server.ts`, with variants `cloud-postgres-server.ts` and the
  in-memory `simple` server).  Every successful write ends with
  `updateCapital()`, which recomputes the signed sum from the transactions
  table and overwrites the stored capital row.

Amounts and the capital value are modelled as integer numbers of cents: the
persistent schema is `DECIMAL(10,2)`, so every stored monetary value is a
whole number of cents, and all the arithmetic the claims exercise (signed
sums, deltas) is exact at that granularity.  Floating-point rounding of the
JavaScript `Number` type is out of scope.  Timestamps and ids are naturals.
-/

namespace FinLedger

/-- Transaction kind: the `type` column/field, `'income'` or `'expense'`
(enforced by the Mongoose enum and the PostgreSQL CHECK constraint). -/
inductive TxType
  | income
  | expense
deriving DecidableEq

/-- Sign: `+1` for income, `-1` for expense: the `CASE WHEN type = 'income' THEN
amount WHEN type = 'expense' THEN -amount` expression in `updateCapital` and
the `sign` local in `applyTransactionDelta`. -/
def TxType.sign : TxType → ℤ
  | .income => 1
  | .expense => -1

/-- A stored transaction record: `id`/`_id`, `type`, `amount`, optional
`description`, optional user-supplied `date` (epoch milliseconds of the
parsed value), immutable `createdAt` timestamp. -/
structure Tx where
  id : ℕ
  type : TxType
  amount : ℤ
  description : Option String
  date : Option ℕ
  createdAt : ℕ
deriving DecidableEq

/-- The signed contribution of one transaction to the capital. -/
def signedAmount (t : Tx) : ℤ := t.type.sign * t.amount

/-- The sum `Σ sign(t) * amount(t)` over a list of transactions. -/
def signedSum (ts : List Tx) : ℤ := (ts.map signedAmount).sum

/-! ### Realization A: NestJS + Mongoose (incrementally maintained capital) -/

/-- State of the Mongo-backed realization: the `transactions` collection, the
capital document (`none` when no document exists yet), a counter assigning
fresh `_id`s and a logical clock assigning `createdAt` timestamps. -/
structure StateA where
  txs : List Tx
  capital : Option ℤ
  nextId : ℕ
  clock : ℕ
deriving DecidableEq

/-- The observable capital value: the stored document's value, `0` when no
document exists (both `ensureOne` and the `$inc` upsert treat a missing
document as `0`). -/
def capValue (s : StateA) : ℤ := s.capital.getD 0

/-- Model of `CapitalService.get` via `ensureOne`: return the stored value; when no
capital document exists, create one with value `0` and return `0`. -/
def CapitalService.get (s : StateA) : ℤ × StateA :=
  match s.capital with
  | some v => (v, s)
  | none => (0, { s with capital := some 0 })

/-- The `delta` computed by `CapitalService.applyTransactionDelta`:
`(isReverse ? -1 : 1) * sign * amount`. -/
def deltaOf (ty : TxType) (amount : ℤ) (reverse : Bool) : ℤ :=
  (if reverse then (-1 : ℤ) else 1) * ty.sign * amount

/-- Model of `CapitalService.applyTransactionDelta`: `updateOne({}, { $inc: { value:
delta } }, { upsert: true })` — increments the capital document's value by
`delta`, creating the document (from `0`) when absent. -/
def applyTransactionDelta (ty : TxType) (amount : ℤ) (reverse : Bool) (s : StateA) : StateA :=
  { s with capital := some (s.capital.getD 0 + deltaOf ty amount reverse) }

/-- Model of `CapitalService.reconcileEdit`: reverse the old pair, then apply the new
pair. -/
def reconcileEdit (oldTy : TxType) (oldAmount : ℤ) (newTy : TxType) (newAmount : ℤ)
    (s : StateA) : StateA :=
  applyTransactionDelta newTy newAmount false (applyTransactionDelta oldTy oldAmount true s)

/-- The `CreateTransactionDto`: already strictly typed (`type: TransactionType`,
`amount: number`, optional `description`, optional `date`). -/
structure CreateDto where
  type : TxType
  amount : ℤ
  description : Option String
  date : Option ℕ
deriving DecidableEq

/-- The `UpdateTransactionDto`: every field optional.  `none` means the field is
absent from the request (`!== undefined` is false, keep as-is); for
`description`/`date`, `some none` models an explicitly present `null`/falsy
value (which clears the stored field), `some (some v)` sets it. -/
structure UpdateDto where
  type : Option TxType
  amount : Option ℤ
  description : Option (Option String)
  date : Option (Option ℕ)
deriving DecidableEq

/-- Service-level failures: `NotFoundException`, or a Mongoose schema
validation error (`amount` has `min: 0`; `type`'s enum is enforced by
`TxType` itself in this embedding). -/
inductive SvcErr
  | notFound
  | validation
deriving DecidableEq

/-- Lookup `findById`: first (unique) record with the given id. -/
def findById (id : ℕ) : List Tx → Option Tx
  | [] => none
  | t :: ts => if t.id = id then some t else findById id ts

/-- Persisting `existing.save()` after mutation: replace the record with the
matching id. -/
def replaceById (id : ℕ) (u : Tx) : List Tx → List Tx
  | [] => []
  | t :: ts => if t.id = id then u :: ts else t :: replaceById id u ts

/-- Model of `existing.deleteOne()`: remove the record with the matching id. -/
def removeById (id : ℕ) : List Tx → List Tx
  | [] => []
  | t :: ts => if t.id = id then ts else t :: removeById id ts

/-- The field-by-field mutation in `TransactionsService.update`: each `if
(dto.x !== undefined) existing.x = ...` assignment.  `id` and `createdAt` are
not assigned. -/
def applyUpdate (d : UpdateDto) (t : Tx) : Tx :=
  { t with
    type := d.type.getD t.type
    amount := d.amount.getD t.amount
    description := match d.description with
      | none => t.description
      | some v => v
    date := match d.date with
      | none => t.date
      | some v => v }

/-- Model of `TransactionsService.create`: insert the document (Mongoose rejects a
negative `amount` via `min: 0` before anything is written), then
`applyTransactionDelta(doc.type, doc.amount)`. -/
def TransactionsService.create (d : CreateDto) (s : StateA) : Except SvcErr Tx × StateA :=
  if d.amount < 0 then (.error .validation, s)
  else
    let doc : Tx := ⟨s.nextId, d.type, d.amount, d.description, d.date, s.clock⟩
    let s1 : StateA := { s with txs := s.txs ++ [doc], nextId := s.nextId + 1, clock := s.clock + 1 }
    (.ok doc, applyTransactionDelta d.type d.amount false s1)

/-- Model of `TransactionsService.update`: fetch (`NotFound` when absent), capture the
old `(type, amount)` pair, apply present fields, save (Mongoose re-validates
`amount ≥ 0`; a failed save leaves the collection unchanged), then
`reconcileEdit(oldType, oldAmount, updated.type, updated.amount)`. -/
def TransactionsService.update (id : ℕ) (d : UpdateDto) (s : StateA) : Except SvcErr Tx × StateA :=
  match findById id s.txs with
  | none => (.error .notFound, s)
  | some existing =>
    let updated := applyUpdate d existing
    if updated.amount < 0 then (.error .validation, s)
    else
      let s1 : StateA := { s with txs := replaceById id updated s.txs }
      (.ok updated, reconcileEdit existing.type existing.amount updated.type updated.amount s1)

/-- Model of `TransactionsService.delete`: fetch (`NotFound` when absent), delete,
then `applyTransactionDelta(existing.type, existing.amount, { reverse: true })`. -/
def TransactionsService.delete (id : ℕ) (s : StateA) : Except SvcErr Unit × StateA :=
  match findById id s.txs with
  | none => (.error .notFound, s)
  | some existing =>
    let s1 : StateA := { s with txs := removeById id s.txs }
    (.ok (), applyTransactionDelta existing.type existing.amount true s1)

/-- Ordering `ORDER BY created_at DESC` / `.sort({ createdAt: -1 })`: newer first. -/
def descOrder (a b : Tx) : Prop := b.createdAt ≤ a.createdAt

instance : DecidableRel descOrder := fun a b => Nat.decLe b.createdAt a.createdAt

instance : IsTotal Tx descOrder := ⟨fun a b => le_total b.createdAt a.createdAt⟩

instance : IsTrans Tx descOrder := ⟨fun _ _ _ h1 h2 => le_trans h2 h1⟩

/-- Model of `TransactionsService.findAll`: `find().sort({ createdAt: -1 }).lean()` —
all transactions, newest first, with no search, kind filter, or limit. -/
def TransactionsService.findAll (s : StateA) : List Tx :=
  List.insertionSort descOrder s.txs

/-- One API-level operation against realization A. -/
inductive OpA
  | create (d : CreateDto)
  | update (id : ℕ) (d : UpdateDto)
  | delete (id : ℕ)

/-- Run one operation, keeping the state only on success. -/
def stepA (op : OpA) (s : StateA) : Except SvcErr StateA :=
  match op with
  | .create d =>
    match TransactionsService.create d s with
    | (.ok _, s') => .ok s'
    | (.error e, _) => .error e
  | .update id d =>
    match TransactionsService.update id d s with
    | (.ok _, s') => .ok s'
    | (.error e, _) => .error e
  | .delete id =>
    match TransactionsService.delete id s with
    | (.ok _, s') => .ok s'
    | (.error e, _) => .error e

/-- Run a sequence of operations; fails as soon as one operation fails. -/
def runA : List OpA → StateA → Except SvcErr StateA
  | [], s => .ok s
  | op :: ops, s =>
    match stepA op s with
    | .ok s' => runA ops s'
    | .error e => .error e

/-- Empty ledger, capital 0. -/
def initA : StateA := ⟨[], some 0, 0, 0⟩

/-! ### Realization B: Express + PostgreSQL (capital recomputed on every write)

`postgres-server.ts` (and its `cloud` variant).  `initDatabase()` creates the
tables and inserts the single capital row with value 0, so in this model the
capital row always exists and `capital` is a plain rational. -/

/-- State of the Postgres-backed realization. -/
structure StateB where
  txs : List Tx
  capital : ℤ
  nextId : ℕ
  clock : ℕ
deriving DecidableEq

/-- Model of `updateCapital()`: recompute `Σ CASE WHEN income THEN amount WHEN expense
THEN -amount END` over the whole `transactions` table and overwrite the
stored capital row with it. -/
def updateCapital (s : StateB) : StateB := { s with capital := signedSum s.txs }

/-- Model of `updateCapital()` of the in-memory `simple-server` variant:
`transactions.reduce((sum, t) => sum + (t.type === 'income' ? t.amount :
-t.amount), 0)`. -/
def updateCapitalMem (ts : List Tx) : ℤ :=
  ts.foldl (fun sum t => sum + (if t.type = .income then t.amount else -t.amount)) 0

/-- A JSON request body `{type, amount, description?, date?}` as received by
the Express routes.  `type` is the raw string (`none` = absent); `amount` is
the numeric value (`none` = absent, `null`, or non-numeric — everything for
which `isNaN(Number(x))` holds or that is absent); `description`, when
present, is assumed to be a string (the `typeof` check never fires on this
payload space); `date`, when present, is assumed parseable and carried as
epoch milliseconds (the `Date.parse` check never fires here).  The claims
under study only concern the `type` and `amount` constraints. -/
structure ReqBody where
  type : Option String
  amount : Option ℤ
  description : Option String
  date : Option ℕ
deriving DecidableEq

/-- The validation message for an invalid `type`. -/
def typeMsg : String := "Type must be either \"income\" or \"expense\""

/-- The validation message for an invalid `amount`. -/
def amountMsg : String := "Amount must be a positive number"

/-- Model of `validateTransaction(data)`: collects error messages.  The `type` check is
`!data.type || !['income','expense'].includes(data.type)`; the `amount` check
is `!data.amount || isNaN(Number(data.amount)) || Number(data.amount) < 0` —
note that `!data.amount` is already true for `0`, so only strictly positive
amounts pass. -/
def validateTransaction (b : ReqBody) : List String :=
  (if b.type = some "income" ∨ b.type = some "expense" then [] else [typeMsg]) ++
    (match b.amount with
      | some q => if 0 < q then [] else [amountMsg]
      | none => [amountMsg])

/-- Reading the `type` string into the enumeration (the DB CHECK constraint /
the values the kind filter recognises). -/
def toTxType : Option String → Option TxType
  | some "income" => some .income
  | some "expense" => some .expense
  | _ => none

/-- HTTP-level outcome of a route. -/
inductive Resp
  | ok (t : Tx)
  | okList (ts : List Tx)
  | okCapital (v : ℤ)
  | noContent
  | badRequest (details : List String)
  | notFound
  | serverError
deriving DecidableEq

/-- Route `POST /transactions`: validate (400 with all collected messages on
failure, nothing written), insert the row, then `updateCapital()`.  The final
`match` arm is unreachable: a body that passes validation always has a
recognised type and a numeric amount. -/
def postTransaction (b : ReqBody) (s : StateB) : Resp × StateB :=
  if validateTransaction b ≠ [] then (.badRequest (validateTransaction b), s)
  else
    match toTxType b.type, b.amount with
    | some ty, some q =>
      let tx : Tx := ⟨s.nextId, ty, q, b.description, b.date, s.clock⟩
      let s1 : StateB := { s with txs := s.txs ++ [tx], nextId := s.nextId + 1, clock := s.clock + 1 }
      (.ok tx, updateCapital s1)
    | _, _ => (.serverError, s)

/-- The `SET type = $1, amount = $2, description = $3, date = $4` clause of
the PATCH route: all four mutable columns are assigned from the request body
(an omitted `description`/`date` becomes NULL); `id` and `created_at` are not
touched. -/
def sqlSet (b : ReqBody) (ty : TxType) (q : ℤ) (t : Tx) : Tx :=
  { t with type := ty, amount := q, description := b.description, date := b.date }

/-- Route `PATCH /transactions/:id` (numeric ids only; a non-numeric id is rejected
with 400 before anything runs): validate the full body with
`validateTransaction` (400 on failure, nothing written), run the UPDATE over
every row matching the id (the primary key makes that at most one), 404 when
no row matched, otherwise `updateCapital()` and return the updated row. -/
def patchTransaction (id : ℕ) (b : ReqBody) (s : StateB) : Resp × StateB :=
  if validateTransaction b ≠ [] then (.badRequest (validateTransaction b), s)
  else
    match toTxType b.type, b.amount with
    | some ty, some q =>
      let s1 : StateB := { s with txs := s.txs.map (fun t => if t.id = id then sqlSet b ty q t else t) }
      match findById id s.txs with
      | none => (.notFound, s1)
      | some t => (.ok (sqlSet b ty q t), updateCapital s1)
    | _, _ => (.serverError, s)

/-- Route `DELETE /transactions/:id` (numeric ids only): run the DELETE, 404 when no
row matched, otherwise `updateCapital()` and 204. -/
def deleteTransaction (id : ℕ) (s : StateB) : Resp × StateB :=
  let s1 : StateB := { s with txs := s.txs.filter (fun t => t.id ≠ id) }
  match findById id s.txs with
  | none => (.notFound, s1)
  | some _ => (.noContent, updateCapital s1)

/-- Route `GET /capital`: read the single capital row. -/
def getCapital (s : StateB) : Resp × StateB := (.okCapital s.capital, s)

/-- JavaScript `parseInt` restricted to base-10 strings (the `0x` hex prefix
is not modelled; no query string in the claims uses it): trim, optional sign,
longest digit prefix; `none` models `NaN`. -/
def parseIntJS (str : String) : Option ℤ :=
  let cs := str.toList.dropWhile Char.isWhitespace
  let sr : ℤ × List Char :=
    match cs with
    | '-' :: r => (-1, r)
    | '+' :: r => (1, r)
    | r => (1, r)
  let ds := sr.2.takeWhile Char.isDigit
  if ds.isEmpty then none
  else some (sr.1 * (ds.foldl (fun n c => 10 * n + (c.toNat - 48)) 0 : ℕ))

/-- Two-digit rendering of the cents part. -/
def pad2 (n : ℕ) : String := if n < 10 then "0" ++ toString n else toString n

/-- Rendering `CAST(amount AS TEXT)` for a `DECIMAL(10,2)` column holding `c` cents:
always two digits after the point. -/
def centsToText (c : ℤ) : String :=
  (if c < 0 then "-" else "") ++ toString (c.natAbs / 100) ++ "." ++ pad2 (c.natAbs % 100)

/-- The decimal text of a stored amount (the amount is the number of cents). -/
def amountText (t : Tx) : String := centsToText t.amount

/-- Case-insensitive literal substring test (the `ILIKE '%term%'` condition
for terms without SQL wildcards); only called with a nonempty needle. -/
def containsSub (hay needle : String) : Bool := (hay.splitOn needle).length ≠ 1

/-- Case-insensitive match. -/
def iContains (hay needle : String) : Bool := containsSub hay.toLower needle.toLower

/-- The `(description ILIKE $1 OR CAST(amount AS TEXT) ILIKE $1)` condition,
added only when `search` is truthy (absent or empty search means no
condition; a NULL description never matches on the ILIKE side). -/
def searchCond (search : Option String) (t : Tx) : Bool :=
  match search with
  | none => true
  | some q =>
    if q = "" then true
    else
      (match t.description with
        | some d => iContains d q
        | none => false) || iContains (amountText t) q

/-- The `type = $n` condition, added only when the `type` query parameter is
one of the two recognised kinds. -/
def kindCond (ty : Option String) (t : Tx) : Bool :=
  match toTxType ty with
  | none => true
  | some k => t.type = k

/-- Sorting by `ORDER BY created_at DESC`. -/
def sortDescB (ts : List Tx) : List Tx := List.insertionSort descOrder ts

/-- Route `GET /transactions`: filter by search/kind, order by `created_at DESC`,
`LIMIT parseInt(limit)` with `limit` defaulting to the string `'50'` when the
parameter is absent.  There is no clamping: a `NaN` or negative limit makes
the query itself fail (500), and `LIMIT 0` returns no rows. -/
def getTransactions (search ty lim : Option String) (s : StateB) : Resp × StateB :=
  match parseIntJS (lim.getD "50") with
  | none => (.serverError, s)
  | some n =>
    if n < 0 then (.serverError, s)
    else
      (.okList ((sortDescB (s.txs.filter (fun t => searchCond search t && kindCond ty t))).take n.toNat), s)

/-- One write operation against realization B. -/
inductive OpB
  | post (b : ReqBody)
  | patch (id : ℕ) (b : ReqBody)
  | del (id : ℕ)

/-- Successful responses. -/
def isSuccess : Resp → Bool
  | .ok _ => true
  | .okList _ => true
  | .okCapital _ => true
  | .noContent => true
  | _ => false

/-- Run one write, keeping the state only on success. -/
def stepB (op : OpB) (s : StateB) : Option StateB :=
  let rs : Resp × StateB :=
    match op with
    | .post b => postTransaction b s
    | .patch id b => patchTransaction id b s
    | .del id => deleteTransaction id s
  if isSuccess rs.1 then some rs.2 else none

/-- Run a sequence of writes; fails as soon as one fails. -/
def runB : List OpB → StateB → Option StateB
  | [], s => some s
  | op :: ops, s =>
    match stepB op s with
    | some s' => runB ops s'
    | none => none

/-- Empty table, capital row at 0 (the state right after `initDatabase()`). -/
def initB : StateB := ⟨[], 0, 0, 0⟩

/-- The `type` constraint of `validateTransaction`, as a predicate. -/
def validKind (b : ReqBody) : Prop := b.type = some "income" ∨ b.type = some "expense"

instance (b : ReqBody) : Decidable (validKind b) := by
  unfold validKind
  infer_instance

/-- The `amount` constraint of `validateTransaction`, as a predicate: a
numeric amount that is strictly positive (zero fails the `!data.amount`
truthiness test). -/
def posAmount (b : ReqBody) : Prop := ∃ q, b.amount = some q ∧ 0 < q

/-! ### Helper lemmas -/

theorem signedSum_nil : signedSum [] = 0 := rfl

theorem signedSum_cons (t : Tx) (ts : List Tx) :
    signedSum (t :: ts) = signedAmount t + signedSum ts := by
  simp [signedSum]

theorem signedSum_append (ts us : List Tx) :
    signedSum (ts ++ us) = signedSum ts + signedSum us := by
  simp [signedSum]

theorem signedSum_replaceById (id : ℕ) (u : Tx) (ts : List Tx) :
    ∀ t, findById id ts = some t →
      signedSum (replaceById id u ts) = signedSum ts - signedAmount t + signedAmount u := by
  induction ts with
  | nil => intro t h; simp [findById] at h
  | cons x ts ih =>
    intro t h
    by_cases hx : x.id = id
    · rw [findById] at h
      simp only [hx, if_true, Option.some.injEq] at h
      subst h
      rw [replaceById]
      simp only [hx, if_true]
      rw [signedSum_cons, signedSum_cons]
      ring
    · rw [findById] at h
      simp only [hx, if_false] at h
      rw [replaceById]
      simp only [hx, if_false]
      rw [signedSum_cons, signedSum_cons, ih t h]
      ring

theorem signedSum_removeById (id : ℕ) (ts : List Tx) :
    ∀ t, findById id ts = some t →
      signedSum (removeById id ts) = signedSum ts - signedAmount t := by
  induction ts with
  | nil => intro t h; simp [findById] at h
  | cons x ts ih =>
    intro t h
    by_cases hx : x.id = id
    · rw [findById] at h
      simp only [hx, if_true, Option.some.injEq] at h
      subst h
      rw [removeById]
      simp only [hx, if_true]
      rw [signedSum_cons]
      ring
    · rw [findById] at h
      simp only [hx, if_false] at h
      rw [removeById]
      simp only [hx, if_false]
      rw [signedSum_cons, signedSum_cons, ih t h]
      ring

theorem findById_none_iff (id : ℕ) (ts : List Tx) :
    findById id ts = none ↔ ∀ t ∈ ts, t.id ≠ id := by
  induction ts with
  | nil => simp [findById]
  | cons x ts ih =>
    by_cases hx : x.id = id <;> simp [findById, hx, ih]

theorem map_setRow_of_findById_none {id : ℕ} {ts : List Tx} (f : Tx → Tx)
    (h : findById id ts = none) :
    ts.map (fun t => if t.id = id then f t else t) = ts := by
  rw [findById_none_iff] at h
  induction ts with
  | nil => simp
  | cons x ts ih =>
    have hx : x.id ≠ id := h x (by simp)
    simp only [List.map_cons, hx, if_false]
    rw [ih (fun t ht => h t (by simp [ht]))]

theorem filter_ne_of_findById_none {id : ℕ} {ts : List Tx}
    (h : findById id ts = none) :
    ts.filter (fun t => t.id ≠ id) = ts := by
  rw [findById_none_iff] at h
  induction ts with
  | nil => simp
  | cons x ts ih =>
    have hx : x.id ≠ id := h x (by simp)
    have ht : ∀ t ∈ ts, t.id ≠ id := fun t htm => h t (by simp [htm])
    rw [List.filter_cons, if_pos (by simpa using hx), ih ht]

theorem capValue_applyDelta (ty : TxType) (a : ℤ) (rev : Bool) (s : StateA) :
    capValue (applyTransactionDelta ty a rev s) = capValue s + deltaOf ty a rev := rfl

theorem txs_applyDelta (ty : TxType) (a : ℤ) (rev : Bool) (s : StateA) :
    (applyTransactionDelta ty a rev s).txs = s.txs := rfl

theorem capValue_reconcileEdit (oldTy : TxType) (oa : ℤ) (newTy : TxType) (na : ℤ) (s : StateA) :
    capValue (reconcileEdit oldTy oa newTy na s) =
      capValue s - oldTy.sign * oa + newTy.sign * na := by
  unfold reconcileEdit
  rw [capValue_applyDelta, capValue_applyDelta]
  simp [deltaOf]
  ring

theorem validate_eq_nil_iff (b : ReqBody) :
    validateTransaction b = [] ↔ validKind b ∧ posAmount b := by
  unfold validateTransaction validKind posAmount
  by_cases hk : b.type = some "income" ∨ b.type = some "expense"
  · cases hq : b.amount with
    | none => simp [hk, hq]
    | some q => by_cases h0 : (0 : ℤ) < q <;> simp [hk, hq, h0]
  · cases hq : b.amount with
    | none => simp [hk, hq]
    | some q => by_cases h0 : (0 : ℤ) < q <;> simp [hk, hq, h0]

theorem toTxType_isSome_of_validKind {b : ReqBody} (h : validKind b) :
    ∃ ty, toTxType b.type = some ty := by
  cases h with
  | inl h => exact ⟨.income, by rw [h]; rfl⟩
  | inr h => exact ⟨.expense, by rw [h]; rfl⟩

theorem stepA_invariant {op : OpA} {s s' : StateA}
    (hinv : capValue s = signedSum s.txs) (h : stepA op s = .ok s') :
    capValue s' = signedSum s'.txs := by
  cases op with
  | create d =>
    rw [stepA] at h
    unfold TransactionsService.create at h
    by_cases hneg : d.amount < 0
    · simp only [if_pos hneg] at h
      exact Except.noConfusion h
    · simp only [if_neg hneg, Except.ok.injEq] at h
      subst h
      rw [capValue_applyDelta]
      simp only [txs_applyDelta]
      rw [signedSum_append, signedSum_cons, signedSum_nil]
      simp only [capValue] at hinv ⊢
      rw [hinv]
      simp [deltaOf, signedAmount]
  | update id d =>
    rw [stepA] at h
    unfold TransactionsService.update at h
    cases hf : findById id s.txs with
    | none =>
      simp only [hf] at h
      exact Except.noConfusion h
    | some existing =>
      simp only [hf] at h
      by_cases hneg : (applyUpdate d existing).amount < 0
      · simp only [if_pos hneg] at h
        exact Except.noConfusion h
      · simp only [if_neg hneg, Except.ok.injEq] at h
        subst h
        rw [capValue_reconcileEdit]
        have htxs : (reconcileEdit existing.type existing.amount
            (applyUpdate d existing).type (applyUpdate d existing).amount
            { s with txs := replaceById id (applyUpdate d existing) s.txs }).txs =
            replaceById id (applyUpdate d existing) s.txs := rfl
        rw [htxs]
        rw [signedSum_replaceById id (applyUpdate d existing) s.txs existing hf]
        simp only [capValue] at hinv ⊢
        rw [hinv]
        simp [signedAmount]
  | delete id =>
    rw [stepA] at h
    unfold TransactionsService.delete at h
    cases hf : findById id s.txs with
    | none =>
      simp only [hf] at h
      exact Except.noConfusion h
    | some existing =>
      simp only [hf, Except.ok.injEq] at h
      subst h
      rw [capValue_applyDelta]
      simp only [txs_applyDelta]
      rw [signedSum_removeById id s.txs existing hf]
      simp only [capValue] at hinv ⊢
      rw [hinv]
      simp [deltaOf, signedAmount]
      ring

theorem runA_invariant {ops : List OpA} {s s' : StateA}
    (hinv : capValue s = signedSum s.txs) (h : runA ops s = .ok s') :
    capValue s' = signedSum s'.txs := by
  induction ops generalizing s with
  | nil =>
    rw [runA] at h
    simp only [Except.ok.injEq] at h
    subst h
    exact hinv
  | cons op ops ih =>
    rw [runA] at h
    cases hs : stepA op s with
    | error e => rw [hs] at h; exact absurd h (by simp)
    | ok s1 =>
      rw [hs] at h
      exact ih (stepA_invariant hinv hs) h

theorem postTransaction_recomputes {b : ReqBody} {s : StateB} {r : Resp} {s' : StateB}
    (h : postTransaction b s = (r, s')) (hr : isSuccess r = true) :
    s'.capital = signedSum s'.txs := by
  unfold postTransaction at h
  by_cases hv : validateTransaction b ≠ []
  · rw [if_pos hv] at h
    cases h
    simp [isSuccess] at hr
  · rw [if_neg hv] at h
    cases hty : toTxType b.type with
    | none => rw [hty] at h; cases h; simp [isSuccess] at hr
    | some ty =>
      cases hq : b.amount with
      | none => rw [hty, hq] at h; cases h; simp [isSuccess] at hr
      | some q =>
        rw [hty, hq] at h
        cases h
        rfl

theorem patchTransaction_recomputes {id : ℕ} {b : ReqBody} {s : StateB} {r : Resp} {s' : StateB}
    (h : patchTransaction id b s = (r, s')) (hr : isSuccess r = true) :
    s'.capital = signedSum s'.txs := by
  unfold patchTransaction at h
  by_cases hv : validateTransaction b ≠ []
  · rw [if_pos hv] at h
    cases h
    simp [isSuccess] at hr
  · rw [if_neg hv] at h
    cases hty : toTxType b.type with
    | none => rw [hty] at h; cases h; simp [isSuccess] at hr
    | some ty =>
      cases hq : b.amount with
      | none => rw [hty, hq] at h; cases h; simp [isSuccess] at hr
      | some q =>
        rw [hty, hq] at h
        cases hf : findById id s.txs with
        | none => rw [hf] at h; cases h; simp [isSuccess] at hr
        | some t => rw [hf] at h; cases h; rfl

theorem deleteTransaction_recomputes {id : ℕ} {s : StateB} {r : Resp} {s' : StateB}
    (h : deleteTransaction id s = (r, s')) (hr : isSuccess r = true) :
    s'.capital = signedSum s'.txs := by
  unfold deleteTransaction at h
  cases hf : findById id s.txs with
  | none => rw [hf] at h; cases h; simp [isSuccess] at hr
  | some t => rw [hf] at h; cases h; rfl

theorem stepB_invariant {op : OpB} {s s' : StateB} (h : stepB op s = some s') :
    s'.capital = signedSum s'.txs := by
  cases op with
  | post b =>
    rw [stepB] at h
    by_cases hr : isSuccess (postTransaction b s).1
    · rw [if_pos hr] at h
      simp only [Option.some.injEq] at h
      subst h
      exact postTransaction_recomputes rfl hr
    · rw [if_neg hr] at h
      exact absurd h (by simp)
  | patch id b =>
    rw [stepB] at h
    by_cases hr : isSuccess (patchTransaction id b s).1
    · rw [if_pos hr] at h
      simp only [Option.some.injEq] at h
      subst h
      exact patchTransaction_recomputes rfl hr
    · rw [if_neg hr] at h
      exact absurd h (by simp)
  | del id =>
    rw [stepB] at h
    by_cases hr : isSuccess (deleteTransaction id s).1
    · rw [if_pos hr] at h
      simp only [Option.some.injEq] at h
      subst h
      exact deleteTransaction_recomputes rfl hr
    · rw [if_neg hr] at h
      exact absurd h (by simp)

theorem runB_invariant {ops : List OpB} {s s' : StateB}
    (hinv : s.capital = signedSum s.txs) (h : runB ops s = some s') :
    s'.capital = signedSum s'.txs := by
  induction ops generalizing s with
  | nil =>
    rw [runB] at h
    simp only [Option.some.injEq] at h
    subst h
    exact hinv
  | cons op ops ih =>
    rw [runB] at h
    cases hs : stepB op s with
    | none => rw [hs] at h; exact absurd h (by simp)
    | some s1 =>
      rw [hs] at h
      exact ih (stepB_invariant hs) h

/-! ### Claim theorems -/

/-- C1: for every sequence of successful Create/Update/Delete operations
starting from an empty ledger and capital 0, with no interleaved failures,
the capital afterwards equals the signed sum (`+amount` for income,
`-amount` for expense) over all currently-existing transactions — in both
realizations: the incrementally-maintained balance (A) and the
recomputed-from-source balance (B). -/
theorem c1_capital_invariant (opsA : List OpA) (opsB : List OpB) (sA : StateA) (sB : StateB)
    (hA : runA opsA initA = .ok sA) (hB : runB opsB initB = some sB) :
    capValue sA = signedSum sA.txs ∧ sB.capital = signedSum sB.txs :=
  ⟨runA_invariant (show capValue initA = signedSum initA.txs from rfl) hA,
    runB_invariant (show initB.capital = signedSum initB.txs from rfl) hB⟩

/-- Witness for C1: Create(Income, 500); Create(Expense, 120) ends with
capital 380 = signed sum, in both realizations. -/
theorem c1_capital_invariant_witness :
    capValue ⟨[⟨0, .income, 500, none, none, 0⟩, ⟨1, .expense, 120, none, none, 1⟩], some 380, 2, 2⟩ =
        signedSum [⟨0, .income, 500, none, none, 0⟩, ⟨1, .expense, 120, none, none, 1⟩] ∧
      (⟨[⟨0, .income, 500, none, none, 0⟩, ⟨1, .expense, 120, none, none, 1⟩], 380, 2, 2⟩ : StateB).capital =
        signedSum [⟨0, .income, 500, none, none, 0⟩, ⟨1, .expense, 120, none, none, 1⟩] :=
  c1_capital_invariant
    [.create ⟨.income, 500, none, none⟩, .create ⟨.expense, 120, none, none⟩]
    [.post ⟨some "income", some 500, none, none⟩, .post ⟨some "expense", some 120, none, none⟩]
    ⟨[⟨0, .income, 500, none, none, 0⟩, ⟨1, .expense, 120, none, none, 1⟩], some 380, 2, 2⟩
    ⟨[⟨0, .income, 500, none, none, 0⟩, ⟨1, .expense, 120, none, none, 1⟩], 380, 2, 2⟩
    (by rfl) (by decide)

/-- C2: a successful Update of an existing transaction `t` to the
post-mutation record `u = applyUpdate d t` changes the capital by exactly
`sign(u.type) * u.amount - sign(t.type) * t.amount`: the reconcile step uses
the post-mutation pair as "new" and the pre-mutation pair as "old". -/
theorem c2_update_reconcile (s : StateA) (id : ℕ) (d : UpdateDto) (t u : Tx) (s' : StateA)
    (hfind : findById id s.txs = some t)
    (hupd : TransactionsService.update id d s = (.ok u, s')) :
    u = applyUpdate d t ∧
      capValue s' = capValue s + (u.type.sign * u.amount - t.type.sign * t.amount) := by
  unfold TransactionsService.update at hupd
  simp only [hfind] at hupd
  by_cases hneg : (applyUpdate d t).amount < 0
  · simp only [if_pos hneg, Prod.mk.injEq] at hupd
    exact absurd hupd.1 (by simp)
  · simp only [if_neg hneg, Prod.mk.injEq, Except.ok.injEq] at hupd
    obtain ⟨hu, hs⟩ := hupd
    subst hu
    subst hs
    refine ⟨rfl, ?_⟩
    rw [capValue_reconcileEdit]
    have hcap : capValue { s with txs := replaceById id (applyUpdate d t) s.txs } = capValue s := rfl
    rw [hcap]
    ring

/-- Witness for C2 at scenario 4: a transaction created as (Income, 100),
updated with {type: Expense} only, moves capital by -200 (here 100 → -100). -/
theorem c2_update_reconcile_witness :
    (⟨0, .expense, 100, none, none, 0⟩ : Tx) =
        applyUpdate ⟨some .expense, none, none, none⟩ ⟨0, .income, 100, none, none, 0⟩ ∧
      capValue ⟨[⟨0, .expense, 100, none, none, 0⟩], some (-100), 1, 1⟩ =
        capValue ⟨[⟨0, .income, 100, none, none, 0⟩], some 100, 1, 1⟩ + (-200) :=
  c2_update_reconcile ⟨[⟨0, .income, 100, none, none, 0⟩], some 100, 1, 1⟩ 0
    ⟨some .expense, none, none, none⟩ ⟨0, .income, 100, none, none, 0⟩
    ⟨0, .expense, 100, none, none, 0⟩ ⟨[⟨0, .expense, 100, none, none, 0⟩], some (-100), 1, 1⟩
    (by rfl) (by rfl)

/-- C7: the Balance Keeper's `get()` is total (never fails), returns the
current capital value, and when no capital instance exists yet it lazily
creates one initialized to 0 and returns 0; the recompute realization's
`GET /capital` likewise just reads the stored row. -/
theorem c7_get_lazy_init (s : StateA) :
    (CapitalService.get s).1 = capValue s ∧
      CapitalService.get { s with capital := none } = (0, { s with capital := some 0 }) ∧
      (CapitalService.get s).2.txs = s.txs ∧
      ∀ sb : StateB, getCapital sb = (.okCapital sb.capital, sb) := by
  refine ⟨?_, rfl, ?_, fun sb => rfl⟩
  · unfold CapitalService.get capValue
    cases s.capital <;> simp
  · unfold CapitalService.get
    cases s.capital <;> simp

/-- C8: `updateCapital()` (the `recompute` operation) overwrites the stored
capital with the signed sum over the full transaction set, and it is
idempotent; the in-memory variant computes the same value. -/
theorem c8_recompute_idempotent (s : StateB) (ts : List Tx) :
    (updateCapital s).capital = signedSum s.txs ∧
      updateCapital (updateCapital s) = updateCapital s ∧
      updateCapitalMem ts = signedSum ts := by
  refine ⟨rfl, rfl, ?_⟩
  have aux : ∀ us : List Tx, ∀ a : ℤ,
      us.foldl (fun sum t => sum + (if t.type = .income then t.amount else -t.amount)) a =
        a + signedSum us := by
    intro us
    induction us with
    | nil => intro a; simp [signedSum]
    | cons t us ih =>
      intro a
      rw [List.foldl_cons, ih, signedSum_cons]
      cases htt : t.type <;> simp [signedAmount, TxType.sign, htt] <;> ring
  rw [updateCapitalMem, aux ts 0]
  ring

/-- C9: `applyDelta(kind, amount)` followed by
`applyDelta(kind, amount, reverse=true)` restores the capital to its prior
value exactly, because the reverse call applies the exact negation
`(reverse ? -1 : 1) * sign * amount` of the forward delta. -/
theorem c9_delta_symmetry (s : StateA) (c : ℤ) (ty : TxType) (a : ℤ) :
    deltaOf ty a true = -(deltaOf ty a false) ∧
      (applyTransactionDelta ty a true
          (applyTransactionDelta ty a false { s with capital := some c })).capital = some c ∧
      capValue (applyTransactionDelta ty a true (applyTransactionDelta ty a false s)) =
        capValue s := by
  refine ⟨?_, ?_, ?_⟩
  · simp [deltaOf]
  · simp [applyTransactionDelta, deltaOf]
  · simp [capValue, applyTransactionDelta, deltaOf]

/-- C10 (implicit): in the recompute-from-source realization, every
successful Create, Update, or Delete sets the stored capital to exactly the
ledger's signed sum regardless of the capital's prior value, so any
pre-existing drift is erased by the next successful write. -/
theorem c10_write_erases_drift (s : StateB) (b : ReqBody) (id : ℕ) (r : Resp) (s' : StateB) :
    (postTransaction b s = (r, s') → isSuccess r = true → s'.capital = signedSum s'.txs) ∧
      (patchTransaction id b s = (r, s') → isSuccess r = true → s'.capital = signedSum s'.txs) ∧
      (deleteTransaction id s = (r, s') → isSuccess r = true → s'.capital = signedSum s'.txs) :=
  ⟨fun h hr => postTransaction_recomputes h hr,
    fun h hr => patchTransaction_recomputes h hr,
    fun h hr => deleteTransaction_recomputes h hr⟩

/-- Witness for C10: a state whose stored capital (999) has drifted from its
ledger sum (5); one successful POST leaves capital = signed sum (12). -/
theorem c10_write_erases_drift_witness :
    (⟨[⟨0, .income, 5, none, none, 0⟩, ⟨1, .income, 7, none, none, 1⟩], 12, 2, 2⟩ : StateB).capital =
      signedSum [⟨0, .income, 5, none, none, 0⟩, ⟨1, .income, 7, none, none, 1⟩] :=
  (c10_write_erases_drift ⟨[⟨0, .income, 5, none, none, 0⟩], 999, 1, 1⟩
      ⟨some "income", some 7, none, none⟩ 0 (.ok ⟨1, .income, 7, none, none, 1⟩)
      ⟨[⟨0, .income, 5, none, none, 0⟩, ⟨1, .income, 7, none, none, 1⟩], 12, 2, 2⟩).1
    (by decide) (by decide)

/-- C3 counterexample: the claim says every create request with a valid kind
and amount ≥ 0 — including amount = 0 — succeeds; but `!data.amount` is
already true for `0`, so Create(income, 0) is rejected with the amount
message and nothing is written. -/
theorem c3_zero_amount_rejected :
    postTransaction ⟨some "income", some 0, none, none⟩ initB =
      (.badRequest [amountMsg], initB) := by decide

/-- C3 (amended): Create fails with InvalidInput exactly when the kind is not
in {income, expense} or the amount is absent, zero, or negative (the amount
must be a strictly positive number); each violated constraint's message is
present in the collected error list exactly when that constraint is violated
(so several violations are reported together); and every valid request
appends a record and recomputes the capital. -/
theorem c3_create_validation (b : ReqBody) (s : StateB) :
    ((∃ msgs, postTransaction b s = (.badRequest msgs, s)) ↔ ¬(validKind b ∧ posAmount b)) ∧
      (typeMsg ∈ validateTransaction b ↔ ¬validKind b) ∧
      (amountMsg ∈ validateTransaction b ↔ ¬posAmount b) ∧
      (validKind b → posAmount b →
        ∃ t, postTransaction b s =
          (.ok t, updateCapital
            { s with txs := s.txs ++ [t], nextId := s.nextId + 1, clock := s.clock + 1 })) := by
  have hv := validate_eq_nil_iff b
  have hsucc : validKind b → posAmount b →
      ∃ t, postTransaction b s =
        (.ok t, updateCapital
          { s with txs := s.txs ++ [t], nextId := s.nextId + 1, clock := s.clock + 1 }) := by
    intro hk hp
    obtain ⟨ty, hty⟩ := toTxType_isSome_of_validKind hk
    obtain ⟨q, hq, h0⟩ := hp
    have hnil : validateTransaction b = [] := hv.mpr ⟨hk, ⟨q, hq, h0⟩⟩
    refine ⟨⟨s.nextId, ty, q, b.description, b.date, s.clock⟩, ?_⟩
    unfold postTransaction
    rw [if_neg (by simp [hnil])]
    simp only [hty, hq]
  refine ⟨?_, ?_, ?_, hsucc⟩
  · constructor
    · rintro ⟨msgs, hm⟩ hvk
      obtain ⟨t, ht⟩ := hsucc hvk.1 hvk.2
      rw [ht] at hm
      exact absurd (congrArg Prod.fst hm) (by simp)
    · intro hn
      have hne : validateTransaction b ≠ [] := fun hnil => hn (hv.mp hnil)
      refine ⟨validateTransaction b, ?_⟩
      unfold postTransaction
      rw [if_pos hne]
  · by_cases hk : b.type = some "income" ∨ b.type = some "expense"
    · cases hq : b.amount with
      | none =>
        simp [validateTransaction, validKind, hk, hq, (by decide : typeMsg ≠ amountMsg)]
      | some q =>
        by_cases h0 : (0 : ℤ) < q <;>
          simp [validateTransaction, validKind, hk, hq, h0, (by decide : typeMsg ≠ amountMsg)]
    · cases hq : b.amount with
      | none =>
        simp [validateTransaction, validKind, hk, hq]
      | some q =>
        by_cases h0 : (0 : ℤ) < q <;>
          simp [validateTransaction, validKind, hk, hq, h0]
  · by_cases hk : b.type = some "income" ∨ b.type = some "expense"
    · cases hq : b.amount with
      | none =>
        simp [validateTransaction, posAmount, hk, hq, (by decide : amountMsg ≠ typeMsg)]
      | some q =>
        by_cases h0 : (0 : ℤ) < q <;>
          simp [validateTransaction, posAmount, hk, hq, h0, (by decide : amountMsg ≠ typeMsg)]
    · cases hq : b.amount with
      | none =>
        simp [validateTransaction, posAmount, hk, hq, (by decide : amountMsg ≠ typeMsg)]
      | some q =>
        by_cases h0 : (0 : ℤ) < q <;>
          simp [validateTransaction, posAmount, hk, hq, h0, (by decide : amountMsg ≠ typeMsg)]

/-- Witness for C3 (amended): Create(income, 5) on a valid body succeeds and
appends the record. -/
theorem c3_create_validation_witness :
    ∃ t, postTransaction ⟨some "income", some 5, none, none⟩ initB =
      (.ok t, updateCapital
        { initB with txs := initB.txs ++ [t], nextId := initB.nextId + 1,
                     clock := initB.clock + 1 }) :=
  (c3_create_validation ⟨some "income", some 5, none, none⟩ initB).2.2.2
    (Or.inl rfl) ⟨5, rfl, by decide⟩

/-- C4: operations that fail with InvalidInput or NotFound never mutate the
balance or the ledger, in both realizations: an invalid Create/Update body
yields 400 with the state unchanged; Update/Delete of a nonexistent id yields
404 / NotFound with the state unchanged; an invalid Nest create is rejected
before anything is written. -/
theorem c4_failures_no_mutation (s : StateB) (sa : StateA) (b : ReqBody) (d : UpdateDto)
    (dc : CreateDto) (id : ℕ) :
    (validateTransaction b ≠ [] →
        postTransaction b s = (.badRequest (validateTransaction b), s) ∧
          patchTransaction id b s = (.badRequest (validateTransaction b), s)) ∧
      (validateTransaction b = [] → findById id s.txs = none →
        patchTransaction id b s = (.notFound, s)) ∧
      (findById id s.txs = none → deleteTransaction id s = (.notFound, s)) ∧
      (findById id sa.txs = none →
        TransactionsService.update id d sa = (.error .notFound, sa) ∧
          TransactionsService.delete id sa = (.error .notFound, sa)) ∧
      (dc.amount < 0 → TransactionsService.create dc sa = (.error .validation, sa)) := by
  refine ⟨?_, ?_, ?_, ?_, ?_⟩
  · intro hne
    constructor
    · unfold postTransaction
      rw [if_pos hne]
    · unfold patchTransaction
      rw [if_pos hne]
  · intro hnil hf
    have hvk := (validate_eq_nil_iff b).mp hnil
    obtain ⟨ty, hty⟩ := toTxType_isSome_of_validKind hvk.1
    obtain ⟨q, hq, _⟩ := hvk.2
    unfold patchTransaction
    rw [if_neg (by simp [hnil])]
    simp only [hty, hq, hf]
    rw [map_setRow_of_findById_none _ hf]
  · intro hf
    unfold deleteTransaction
    simp only [hf]
    rw [filter_ne_of_findById_none hf]
  · intro hf
    constructor
    · unfold TransactionsService.update
      simp only [hf]
    · unfold TransactionsService.delete
      simp only [hf]
  · intro hneg
    unfold TransactionsService.create
    rw [if_pos hneg]

/-- Witness for C4: Create with an empty body is rejected with both messages
and leaves the initial state untouched; Delete of the nonexistent id 0 is a
404 leaving the state untouched; the Nest variants likewise. -/
theorem c4_failures_no_mutation_witness :
    (postTransaction ⟨none, none, none, none⟩ initB =
        (.badRequest (validateTransaction ⟨none, none, none, none⟩), initB) ∧
      patchTransaction 0 ⟨none, none, none, none⟩ initB =
        (.badRequest (validateTransaction ⟨none, none, none, none⟩), initB)) ∧
      patchTransaction 0 ⟨some "income", some 5, none, none⟩ initB = (.notFound, initB) ∧
      deleteTransaction 0 initB = (.notFound, initB) ∧
      TransactionsService.update 0 ⟨none, none, none, none⟩ initA = (.error .notFound, initA) ∧
      TransactionsService.delete 0 initA = (.error .notFound, initA) ∧
      TransactionsService.create ⟨.income, -5, none, none⟩ initA = (.error .validation, initA) := by
  have h1 := c4_failures_no_mutation initB initA ⟨none, none, none, none⟩
    ⟨none, none, none, none⟩ ⟨.income, -5, none, none⟩ 0
  have h2 := c4_failures_no_mutation initB initA ⟨some "income", some 5, none, none⟩
    ⟨none, none, none, none⟩ ⟨.income, -5, none, none⟩ 0
  exact ⟨h1.1 (by decide), h2.2.1 (by decide) rfl, h1.2.2.1 rfl,
    (h1.2.2.2.1 rfl).1, (h1.2.2.2.1 rfl).2, h1.2.2.2.2 (by decide)⟩

/-- C5 counterexample: in the recompute realization, a PATCH carrying only
{type, amount} (description and occurred-at omitted) erases the stored
description (some "lunch" becomes none) instead of keeping it, contradicting
"every field omitted from the request keeps its prior value". -/
theorem c5_patch_clobbers_omitted :
    patchTransaction 1 ⟨some "income", some 5, none, none⟩
        ⟨[⟨1, .income, 5, some "lunch", none, 0⟩], 5, 2, 1⟩ =
      (.ok ⟨1, .income, 5, none, none, 0⟩,
        ⟨[⟨1, .income, 5, none, none, 0⟩], 5, 2, 1⟩) := by decide

/-- C5 (amended): in the incremental (Nest) realization a successful Update
applies only the fields present in the request — every omitted field keeps
its prior value — and created-at (and the id) never change.  In the recompute
(Express) realization, PATCH requires a full valid body and always assigns
all four mutable columns from it (an omitted description/occurred-at becomes
NULL rather than being kept), while id and created-at are still never
changed by any PATCH. -/
theorem c5_partial_update (sa : StateA) (id : ℕ) (d : UpdateDto) (t u : Tx) (sa' : StateA)
    (hfind : findById id sa.txs = some t)
    (hupd : TransactionsService.update id d sa = (.ok u, sa'))
    (sb : StateB) (b : ReqBody) :
    (u.id = t.id ∧ u.createdAt = t.createdAt ∧
        (d.type = none → u.type = t.type) ∧
        (d.amount = none → u.amount = t.amount) ∧
        (d.description = none → u.description = t.description) ∧
        (d.date = none → u.date = t.date) ∧
        sa'.txs = replaceById id u sa.txs) ∧
      (patchTransaction id b sb).2.txs.map (fun x => (x.id, x.createdAt)) =
        sb.txs.map (fun x => (x.id, x.createdAt)) ∧
      (validateTransaction b = [] → ∀ t2, findById id sb.txs = some t2 →
        ∃ u2, (patchTransaction id b sb).1 = .ok u2 ∧ u2.description = b.description ∧
          u2.date = b.date ∧ u2.createdAt = t2.createdAt ∧ u2.id = t2.id) := by
  refine ⟨?_, ?_, ?_⟩
  · unfold TransactionsService.update at hupd
    simp only [hfind] at hupd
    by_cases hneg : (applyUpdate d t).amount < 0
    · simp only [if_pos hneg, Prod.mk.injEq] at hupd
      exact absurd hupd.1 (by simp)
    · simp only [if_neg hneg, Prod.mk.injEq, Except.ok.injEq] at hupd
      obtain ⟨hu, hs⟩ := hupd
      subst hu
      subst hs
      refine ⟨rfl, rfl, ?_, ?_, ?_, ?_, rfl⟩
      · intro h
        simp [applyUpdate, h]
      · intro h
        simp [applyUpdate, h]
      · intro h
        simp [applyUpdate, h]
      · intro h
        simp [applyUpdate, h]
  · unfold patchTransaction
    by_cases hvb : validateTransaction b ≠ []
    · rw [if_pos hvb]
    · rw [if_neg hvb]
      cases hty : toTxType b.type with
      | none =>
        cases hq : b.amount <;> simp [hty, hq]
      | some ty =>
        cases hq : b.amount with
        | none => simp [hty, hq]
        | some q =>
          simp only [hty, hq]
          cases hf : findById id sb.txs with
          | none =>
            simp only [hf, updateCapital, List.map_map]
            refine List.map_congr_left ?_
            intro x hx
            by_cases hxi : x.id = id <;> simp [sqlSet, hxi]
          | some t2 =>
            simp only [hf, updateCapital, List.map_map]
            refine List.map_congr_left ?_
            intro x hx
            by_cases hxi : x.id = id <;> simp [sqlSet, hxi]
  · intro hnil t2 hf2
    have hvk := (validate_eq_nil_iff b).mp hnil
    obtain ⟨ty, hty⟩ := toTxType_isSome_of_validKind hvk.1
    obtain ⟨q, hq, _⟩ := hvk.2
    unfold patchTransaction
    rw [if_neg (by simp [hnil])]
    simp only [hty, hq, hf2]
    exact ⟨sqlSet b ty q t2, rfl, rfl, rfl, rfl, rfl⟩

/-- Witness for C5: updating only the amount (100 → 150) keeps the
description and the creation timestamp. -/
theorem c5_partial_update_witness :
    (⟨0, .income, 150, some "x", none, 3⟩ : Tx).description =
        (⟨0, .income, 100, some "x", none, 3⟩ : Tx).description ∧
      (⟨0, .income, 150, some "x", none, 3⟩ : Tx).createdAt =
        (⟨0, .income, 100, some "x", none, 3⟩ : Tx).createdAt := by
  have h := c5_partial_update ⟨[⟨0, .income, 100, some "x", none, 3⟩], some 100, 1, 4⟩ 0
    ⟨none, some 150, none, none⟩ ⟨0, .income, 100, some "x", none, 3⟩
    ⟨0, .income, 150, some "x", none, 3⟩ ⟨[⟨0, .income, 150, some "x", none, 3⟩], some 150, 1, 4⟩
    (by rfl) (by rfl) initB ⟨some "income", some 5, none, none⟩
  exact ⟨h.1.2.2.2.2.1 rfl, h.1.2.1⟩

/-- C6 counterexample: the claim says an invalid or non-positive limit is
clamped to the default of 50; but `limit=0` is passed through as `LIMIT 0`,
returning an empty result over a nonempty table instead of up to 50 rows. -/
theorem c6_limit_not_clamped :
    getTransactions none none (some "0") ⟨[⟨0, .income, 5, none, none, 0⟩], 5, 1, 1⟩ =
      (.okList [], ⟨[⟨0, .income, 5, none, none, 0⟩], 5, 1, 1⟩) := by decide

/-- C6 (amended): in the recompute realization, List returns transactions
descending by creation time, at most `parseInt(limit)` of them with the limit
string defaulting to "50" when the parameter is absent, and each returned
transaction comes from the store and matches the case-insensitive substring
search (against description or decimal-formatted amount) and the kind filter;
there is no clamping — a non-numeric limit or a negative limit makes the
query fail (500) and limit 0 returns nothing.  The incremental realization's
findAll ignores search, kind and limit entirely and returns all transactions
descending. -/
theorem c6_list_semantics (s : StateB) (search ty lim : Option String) (n : ℤ) (sa : StateA) :
    (parseIntJS (lim.getD "50") = some n → 0 ≤ n →
        ∃ l, getTransactions search ty lim s = (.okList l, s) ∧
          List.Pairwise descOrder l ∧ l.length ≤ n.toNat ∧
          ∀ t ∈ l, t ∈ s.txs ∧ searchCond search t = true ∧ kindCond ty t = true) ∧
      (parseIntJS (lim.getD "50") = none → getTransactions search ty lim s = (.serverError, s)) ∧
      (parseIntJS (lim.getD "50") = some n → n < 0 →
        getTransactions search ty lim s = (.serverError, s)) ∧
      (lim = none → parseIntJS (lim.getD "50") = some 50) ∧
      List.Pairwise descOrder (TransactionsService.findAll sa) ∧
      (∀ t, t ∈ TransactionsService.findAll sa ↔ t ∈ sa.txs) := by
  refine ⟨?_, ?_, ?_, ?_, ?_, ?_⟩
  · intro hpar h0
    unfold getTransactions
    simp only [hpar]
    rw [if_neg (not_lt.mpr h0)]
    refine ⟨_, rfl, ?_, ?_, ?_⟩
    · exact (List.sorted_insertionSort descOrder _).sublist
        (List.take_sublist _ _)
    · exact List.length_take_le _ _
    · intro t ht
      have h1 : t ∈ sortDescB (s.txs.filter fun t => searchCond search t && kindCond ty t) :=
        List.mem_of_mem_take ht
      have h2 : t ∈ s.txs.filter fun t => searchCond search t && kindCond ty t :=
        ((List.perm_insertionSort descOrder _).mem_iff).mp h1
      have h3 := List.mem_filter.mp h2
      have h4 := h3.2
      rw [Bool.and_eq_true] at h4
      exact ⟨h3.1, h4.1, h4.2⟩
  · intro hpar
    unfold getTransactions
    simp only [hpar]
  · intro hpar hneg
    unfold getTransactions
    simp only [hpar]
    rw [if_pos hneg]
  · intro h
    subst h
    decide
  · exact List.sorted_insertionSort descOrder sa.txs
  · intro t
    exact (List.perm_insertionSort descOrder sa.txs).mem_iff

/-- Witness for C6 (amended) at an absent limit: the default parses to 50 and
the returned list is descending, within the cap, and drawn from the store. -/
theorem c6_list_semantics_witness :
    ∃ l, getTransactions none none none
        ⟨[⟨0, .income, 5, none, none, 0⟩, ⟨1, .expense, 3, none, none, 4⟩], 2, 2, 5⟩ =
        (.okList l, ⟨[⟨0, .income, 5, none, none, 0⟩, ⟨1, .expense, 3, none, none, 4⟩], 2, 2, 5⟩) ∧
      List.Pairwise descOrder l ∧ l.length ≤ (50 : ℤ).toNat ∧
      ∀ t ∈ l, t ∈ (⟨[⟨0, .income, 5, none, none, 0⟩, ⟨1, .expense, 3, none, none, 4⟩],
          2, 2, 5⟩ : StateB).txs ∧
        searchCond none t = true ∧ kindCond none t = true :=
  (c6_list_semantics ⟨[⟨0, .income, 5, none, none, 0⟩, ⟨1, .expense, 3, none, none, 4⟩], 2, 2, 5⟩
      none none none 50 initA).1 (by decide) (by decide)

end FinLedger
